import Mathlib

/-!
Shallow embedding of the blog-entry REST service (src/src/main.rs): the
Entry data model, the validator-derived validation, the ValidatedJson
request extractor, the two HTTP handlers, the error-to-response mapping,
the serde-style JSON codec of an Entry, and the startup schema-script
loop. External collaborators (sqlx storage, the axum JSON extractor, the
email syntax predicate of the validator crate) are passed in as
parameters or modelled by their observable outcome.
-/

/-- Model of chrono DateTime of Utc: seconds since epoch plus the
subsecond nanoseconds, the precision chrono carries. -/
structure Timestamp where
  secs : Int
  nanos : Nat
deriving DecidableEq

/-- The BlogEntry struct of main.rs: created, title, author, text. -/
structure BlogEntry where
  created : Timestamp
  title : String
  author : String
  text : String
deriving DecidableEq

/-- One entry of validator ValidationErrors: the violated field, the
validator code and the human-readable message given in the attribute. -/
structure FieldError where
  field : String
  code : String
  message : String
deriving DecidableEq

def titleError : FieldError :=
  ⟨"title", "length", "Title length must be between 10 and 100"⟩

def authorError : FieldError :=
  ⟨"author", "email", "author must be a valid email address"⟩

def textError : FieldError :=
  ⟨"text", "length", "text length must be at least 10"⟩

/-- The length check of the validate attribute on title: chars count in
[10, 100], both bounds inclusive. -/
def titleOk (e : BlogEntry) : Bool :=
  10 ≤ e.title.length && e.title.length ≤ 100

/-- The length check of the validate attribute on text: at least 10. -/
def textOk (e : BlogEntry) : Bool :=
  10 ≤ e.text.length

/-- The accumulated error list of the derived validate: every check runs,
each violated field contributes its one error entry, in field declaration
order (the HashMap of ValidationErrors is modelled as this ordered list).
The email syntax predicate of the validator crate is the parameter
is_email. -/
def validationErrors (is_email : String → Bool) (e : BlogEntry) : List FieldError :=
  (if titleOk e then [] else [titleError])
    ++ (if is_email e.author then [] else [authorError])
    ++ (if textOk e then [] else [textError])

/-- The derived Validate impl on BlogEntry: ok when no check failed,
otherwise the accumulated error list. The created field has no validate
attribute and is not inspected. -/
def validate (is_email : String → Bool) (e : BlogEntry) : Except (List FieldError) Unit :=
  if (validationErrors is_email e).isEmpty then Except.ok ()
  else Except.error (validationErrors is_email e)

/-- The ServerError enum of main.rs. -/
inductive ServerError where
  | ValidationError (errs : List FieldError)
  | AxumFormRejection (msg : String)
deriving DecidableEq

/-- ValidatedJson from_request: run the axum JSON extractor (its outcome
is the parameter decoded, an error carrying the parse problem text), then
validate; the question-mark conversions wrap each failure in its
ServerError variant. -/
def from_request (is_email : String → Bool) (decoded : Except String BlogEntry) :
    Except ServerError BlogEntry :=
  match decoded with
  | Except.error m => Except.error (ServerError.AxumFormRejection m)
  | Except.ok value =>
    match validate is_email value with
    | Except.error errs => Except.error (ServerError.ValidationError errs)
    | Except.ok _ => Except.ok value

/-- Model of the derived Debug rendering of one ValidationErrors map
entry (params elided): field name, Field, code and message. A literal
brace is written with its escape. -/
def fieldErrorDebug (fe : FieldError) : String :=
  "\"" ++ fe.field ++ "\": Field([ValidationError \x7b code: \"" ++ fe.code ++
    "\", message: Some(\"" ++ fe.message ++ "\") \x7d])"

/-- Separator-joined concatenation, as the derived Debug of a map prints
its entries. -/
def joinSep (sep : String) : List String → String
  | [] => ""
  | [x] => x
  | x :: y :: rest => x ++ sep ++ joinSep sep (y :: rest)

/-- Model of the derived Debug of validator ValidationErrors: the entries
joined by a comma separator inside the constructor wrapper. -/
def validationErrorsDebug (errs : List FieldError) : String :=
  "ValidationErrors(\x7b" ++ joinSep ", " (errs.map fieldErrorDebug) ++ "\x7d)"

/-- Model of the derived Debug of ServerError itself, as used by the
format call in into_response. -/
def serverErrorDebug : ServerError → String
  | ServerError.ValidationError errs =>
    "ValidationError(" ++ validationErrorsDebug errs ++ ")"
  | ServerError.AxumFormRejection m => "AxumFormRejection(" ++ m ++ ")"

/-- What the Rust str replace of a newline by a comma-space does to one
character. -/
def replChar (c : Char) : List Char := if c = '\n' then [',', ' '] else [c]

/-- The str replace of main.rs applied characterwise. -/
def flattenChars : List Char → List Char
  | [] => []
  | c :: rest => replChar c ++ flattenChars rest

/-- The replace call of into_response: every newline of the composed
message becomes a comma and a space. -/
def flattenNewlines (s : String) : String := ⟨flattenChars s.data⟩

/-- The into_response impl of ServerError: a validation error formats the
Debug rendering inside the fixed prefix and brackets and flattens
newlines, status 400; a JSON rejection uses its transparent Display text,
status 400. -/
def serverErrorIntoResponse : ServerError → Nat × String
  | ServerError.ValidationError errs =>
    (400, flattenNewlines ("Input validation error: [" ++
      serverErrorDebug (ServerError.ValidationError errs) ++ "]"))
  | ServerError.AxumFormRejection m => (400, m)

/-- The JSON value tree, as serde_json sees a document. -/
inductive Json where
  | null
  | bool (b : Bool)
  | num (n : Int)
  | str (s : String)
  | arr (elems : List Json)
  | obj (fields : List (String × Json))

/-- An HTTP response body: either plain text (the error tuples) or a JSON
document (the Json axum responder). -/
inductive Body where
  | text (s : String)
  | json (j : Json)

/-- An HTTP response: status code and body. -/
structure HttpResponse where
  status : Nat
  body : Body

/-- The internal_error helper of main.rs: any error becomes status 500
with the error's textual description. -/
def internal_error (err : String) : Nat × String := (500, err)

/-- Decimal digit to its character. -/
def digitToChar (d : Nat) : Char := Char.ofNat (48 + d)

/-- Character back to a decimal digit, if it is one. -/
def charToDigit (c : Char) : Option Nat :=
  if 48 ≤ c.toNat ∧ c.toNat ≤ 57 then some (c.toNat - 48) else none

/-- Decimal numeral of a natural number, most significant digit first. -/
def natEncode (n : Nat) : List Char :=
  if n = 0 then ['0'] else ((Nat.digits 10 n).map digitToChar).reverse

/-- Little-endian digit collection of a character list, failing on a
non-digit. -/
def takeDigits : List Char → Option (List Nat)
  | [] => some []
  | c :: rest =>
    match charToDigit c, takeDigits rest with
    | some d, some ds => some (d :: ds)
    | _, _ => none

/-- Parse a nonempty decimal numeral. -/
def natDecode (l : List Char) : Option Nat :=
  if l = [] then none
  else
    match takeDigits l with
    | some ds => some (Nat.ofDigits 10 ds.reverse)
    | none => none

/-- Signed decimal numeral of an integer. -/
def intEncode (i : Int) : List Char :=
  if i < 0 then '-' :: natEncode i.natAbs else natEncode i.toNat

/-- Parse a signed decimal numeral. -/
def intDecode (l : List Char) : Option Int :=
  match l with
  | [] => none
  | c :: rest =>
    if c = '-' then
      match natDecode rest with
      | some n => some (-(n : Int))
      | none => none
    else
      match natDecode (c :: rest) with
      | some n => some ((n : Int))
      | none => none

/-- Modelled from the spec: the chrono textual timestamp serialization of
the created field (an ISO-8601 instant in the real service) is not in
src; the spec requires only a reversible structured text form without
loss of timestamp precision, so the model prints epoch seconds, a dot,
and the nanoseconds. -/
def tsEncode (t : Timestamp) : String :=
  ⟨intEncode t.secs ++ '.' :: natEncode t.nanos⟩

/-- Split a character list at its first dot. -/
def splitDot : List Char → Option (List Char × List Char)
  | [] => none
  | c :: rest =>
    if c = '.' then some ([], rest)
    else (splitDot rest).map (fun p => (c :: p.1, p.2))

/-- Modelled from the spec: parse the reversible textual timestamp form
back into seconds and nanoseconds. -/
def tsDecode (s : String) : Option Timestamp :=
  match splitDot s.data with
  | none => none
  | some (a, b) =>
    match intDecode a, natDecode b with
    | some sec, some nan => some ⟨sec, nan⟩
    | _, _ => none

/-- The derived Serialize of BlogEntry at the serde_json value level: an
object with the four fields in declaration order, the timestamp rendered
as its text form. -/
def encodeBlogEntry (e : BlogEntry) : Json :=
  Json.obj [("created", Json.str (tsEncode e.created)),
    ("title", Json.str e.title),
    ("author", Json.str e.author),
    ("text", Json.str e.text)]

/-- The serde map visitor of the derived Deserialize: walk the object
entries, fill each known field once (a duplicate is an error, an unknown
key is ignored), require a string of the right shape per field. -/
def decodeFields : List (String × Json) → Option Timestamp → Option String →
    Option String → Option String → Option BlogEntry
  | [], some c, some t, some a, some x => some ⟨c, t, a, x⟩
  | [], _, _, _, _ => none
  | (k, v) :: rest, c, t, a, x =>
    if k = "created" then
      match c, v with
      | none, Json.str s =>
        match tsDecode s with
        | some ts => decodeFields rest (some ts) t a x
        | none => none
      | _, _ => none
    else if k = "title" then
      match t, v with
      | none, Json.str s => decodeFields rest c (some s) a x
      | _, _ => none
    else if k = "author" then
      match a, v with
      | none, Json.str s => decodeFields rest c t (some s) x
      | _, _ => none
    else if k = "text" then
      match x, v with
      | none, Json.str s => decodeFields rest c t a (some s)
      | _, _ => none
    else
      decodeFields rest c t a x

/-- The derived Deserialize of BlogEntry at the serde_json value level. -/
def decodeBlogEntry (j : Json) : Option BlogEntry :=
  match j with
  | Json.obj fields => decodeFields fields none none none none
  | _ => none

/-- The get_blogs handler: the storage fetch outcome (external sqlx,
modelled by its result) becomes a 200 JSON array or, through
internal_error, a 500 with the error text. -/
def get_blogs (fetch : Except String (List BlogEntry)) : HttpResponse :=
  match fetch with
  | Except.ok r => ⟨200, Body.json (Json.arr (r.map encodeBlogEntry))⟩
  | Except.error e => ⟨(internal_error e).1, Body.text (internal_error e).2⟩

/-- The add_blog handler body, entered with the already-extracted valid
entry: one insert call with the four fields bound in order
(created, title, author, text); a storage error goes through
internal_error to a 500, success answers 200 with the JSON string
created. The first component records the insert invocations. -/
def add_blog (insert : Timestamp → String → String → String → Except String Unit)
    (blog : BlogEntry) :
    List (Timestamp × String × String × String) × HttpResponse :=
  match insert blog.created blog.title blog.author blog.text with
  | Except.error e =>
    ([(blog.created, blog.title, blog.author, blog.text)],
      ⟨(internal_error e).1, Body.text (internal_error e).2⟩)
  | Except.ok _ =>
    ([(blog.created, blog.title, blog.author, blog.text)],
      ⟨200, Body.json (Json.str "created")⟩)

/-- The whole POST pipeline as axum runs it: the ValidatedJson extractor
first; its rejection is turned into a response by into_response and the
handler body never runs (no insert call); otherwise the handler body
runs. -/
def post_entries (is_email : String → Bool) (decoded : Except String BlogEntry)
    (insert : Timestamp → String → String → String → Except String Unit) :
    List (Timestamp × String × String × String) × HttpResponse :=
  match from_request is_email decoded with
  | Except.error err =>
    ([], ⟨(serverErrorIntoResponse err).1, Body.text (serverErrorIntoResponse err).2⟩)
  | Except.ok blog => add_blog insert blog

/-- The str split of main.rs on the semicolon delimiter: every piece
between semicolons, empty pieces included. -/
def splitSemiAux : List Char → List Char → List String
  | [], acc => [⟨acc.reverse⟩]
  | c :: rest, acc =>
    if c = ';' then (⟨acc.reverse⟩ : String) :: splitSemiAux rest []
    else splitSemiAux rest (c :: acc)

/-- create_database_sql split on semicolons. -/
def splitSemi (s : String) : List String := splitSemiAux s.data []

/-- The startup for-loop of main: execute each statement in order; the
expect on a failure aborts the process, so nothing after the failing
statement runs. Returns the trace of executed statements and the fatal
error, if any. -/
def runStatements (exec : String → Except String Unit) :
    List String → List String × Option String
  | [] => ([], none)
  | s :: rest =>
    match exec s with
    | Except.error e => ([s], some e)
    | Except.ok _ =>
      (s :: (runStatements exec rest).1, (runStatements exec rest).2)

/-- The schema-initialization phase of main: split the script on the
delimiter and run the statements until done or fatally aborted. -/
def startup (exec : String → Except String Unit) (script : String) :
    List String × Option String :=
  runStatements exec (splitSemi script)

/-- Email predicate for concrete scenarios: accepts exactly the spec
scenario address. -/
def sampleEmailCheck : String → Bool := fun s => s = "a@b.com"

/-- The valid POST scenario of the spec: a title of 20 characters, the
author a@b.com, a text of 15 characters. -/
def sampleEntry : BlogEntry :=
  ⟨⟨1700000000, 123456789⟩, "twenty characters ab", "a@b.com", "fifteen chars a"⟩

/-- An entry whose only violation is the short title. -/
def shortTitleEntry : BlogEntry :=
  ⟨⟨0, 0⟩, "short", "a@b.com", "long enough text here"⟩

/-- An entry violating both the title and the text length constraint. -/
def doubleViolationEntry : BlogEntry :=
  ⟨⟨0, 0⟩, "short", "a@b.com", "tiny"⟩

/-- A storage stub whose insert always succeeds. -/
def alwaysOkInsert : Timestamp → String → String → String → Except String Unit :=
  fun _ _ _ _ => Except.ok ()

/-- The text of a plain-text body (empty for a JSON body). -/
def bodyTextOf : Body → String
  | Body.text s => s
  | Body.json _ => ""

/-- Validation succeeds exactly when the three field checks hold, and the
created field never enters the outcome. -/
theorem validate_ok_spec (is_email : String → Bool) (e : BlogEntry) :
    (validate is_email e = Except.ok () ↔
      ((10 ≤ e.title.length ∧ e.title.length ≤ 100) ∧
        is_email e.author = true ∧ 10 ≤ e.text.length)) ∧
    (∀ t : Timestamp, validate is_email { e with created := t } = validate is_email e) := by
  constructor
  · unfold validate validationErrors titleOk textOk
    cases h1 : (10 ≤ e.title.length && e.title.length ≤ 100 : Bool) <;>
      cases h2 : is_email e.author <;>
      cases h3 : (10 ≤ e.text.length : Bool) <;>
      simp_all
  · intro t
    rfl

/-- A validation failure carries exactly the accumulated error list,
which is then nonempty. -/
theorem validate_err_elim (is_email : String → Bool) (e : BlogEntry) (errs : List FieldError)
    (hv : validate is_email e = Except.error errs) :
    errs = validationErrors is_email e ∧ errs ≠ [] := by
  unfold validate at hv
  split at hv <;> simp_all [List.isEmpty_iff]

/-- A nonempty accumulated error list makes validation fail with it. -/
theorem validate_err_intro (is_email : String → Bool) (e : BlogEntry)
    (h : validationErrors is_email e ≠ []) :
    validate is_email e = Except.error (validationErrors is_email e) := by
  unfold validate
  split <;> simp_all [List.isEmpty_iff]

/-- Only the three per-field errors ever appear in the accumulated
list. -/
theorem mem_validationErrors (is_email : String → Bool) (e : BlogEntry) (fe : FieldError)
    (h : fe ∈ validationErrors is_email e) :
    fe = titleError ∨ fe = authorError ∨ fe = textError := by
  unfold validationErrors at h
  cases h1 : titleOk e <;> cases h2 : is_email e.author <;> cases h3 : textOk e <;>
    simp_all <;> tauto

/-- The two-stage behaviour of the ValidatedJson extractor, case by
case. -/
theorem from_request_spec (is_email : String → Bool) (decoded : Except String BlogEntry) :
    (∀ m, from_request is_email decoded = Except.error (ServerError.AxumFormRejection m) ↔
      decoded = Except.error m) ∧
    (∀ errs, from_request is_email decoded = Except.error (ServerError.ValidationError errs) ↔
      ∃ v, decoded = Except.ok v ∧ validate is_email v = Except.error errs) ∧
    (∀ v, from_request is_email decoded = Except.ok v ↔
      decoded = Except.ok v ∧ validate is_email v = Except.ok ()) := by
  refine ⟨?_, ?_, ?_⟩
  · intro m
    cases decoded with
    | error m' => simp [from_request]
    | ok value => cases hv : validate is_email value <;> simp [from_request, hv]
  · intro errs
    cases decoded with
    | error m => simp [from_request]
    | ok value =>
      cases hv : validate is_email value with
      | error errs' => simp [from_request, hv]
      | ok u =>
        cases u
        simp [from_request, hv]
  · intro v
    cases decoded with
    | error m => simp [from_request]
    | ok value =>
      cases hv : validate is_email value with
      | error errs' =>
        simp [from_request, hv]
        rintro rfl
        simp [hv]
      | ok u =>
        cases u
        simp [from_request, hv]
        rintro rfl
        exact hv

/-- An extractor success means the JSON decode succeeded and the decoded
entry validated. -/
theorem from_request_ok_elim (is_email : String → Bool) (decoded : Except String BlogEntry)
    (v : BlogEntry) (h : from_request is_email decoded = Except.ok v) :
    decoded = Except.ok v ∧ validate is_email v = Except.ok () :=
  ((from_request_spec is_email decoded).2.2 v).mp h

/-- Appending distributes over the newline flattening. -/
theorem flattenChars_append (a b : List Char) :
    flattenChars (a ++ b) = flattenChars a ++ flattenChars b := by
  induction a with
  | nil => rfl
  | cons c rest ih => simp [flattenChars, ih]

/-- A flattened character list holds no newline. -/
theorem flattenChars_no_newline (l : List Char) : ∀ c ∈ flattenChars l, c ≠ '\n' := by
  induction l with
  | nil => simp [flattenChars]
  | cons c rest ih =>
    intro d hd
    by_cases hc : c = '\n' <;> simp [flattenChars, replChar, hc] at hd
    · rcases hd with rfl | rfl | hmem
      · decide
      · decide
      · exact ih d hmem
    · rcases hd with rfl | hmem
      · exact hc
      · exact ih d hmem

/-- Flattening leaves a newline-free list unchanged. -/
theorem flattenChars_of_no_newline (l : List Char) (h : ∀ c ∈ l, c ≠ '\n') :
    flattenChars l = l := by
  induction l with
  | nil => rfl
  | cons c rest ih =>
    have hc : c ≠ '\n' := h c (List.mem_cons_self c rest)
    simp [flattenChars, replChar, hc]
    exact ih fun x hx => h x (List.mem_cons_of_mem c hx)

/-- Every element of a separator-joined list appears contiguously in the
join. -/
theorem joinSep_mem_embeds (sep : String) (xs : List String) (x : String) (h : x ∈ xs) :
    ∃ l r, (joinSep sep xs).data = l ++ x.data ++ r := by
  induction xs with
  | nil => simp at h
  | cons y ys ih =>
    cases ys with
    | nil =>
      simp at h
      subst h
      exact ⟨[], [], by simp [joinSep]⟩
    | cons z zs =>
      rcases List.mem_cons.mp h with rfl | hy
      · exact ⟨[], (sep ++ joinSep sep (z :: zs)).data,
          by simp [joinSep, String.data_append]⟩
      · obtain ⟨l, r, hr⟩ := ih hy
        exact ⟨(y ++ sep).data ++ l, r,
          by simp [joinSep, String.data_append, hr]⟩

/-- The per-field message appears contiguously in the debug rendering of
its error entry. -/
theorem fieldErrorDebug_embeds_message (fe : FieldError) :
    ∃ l r, (fieldErrorDebug fe).data = l ++ fe.message.data ++ r := by
  refine ⟨("\"" ++ fe.field ++ "\": Field([ValidationError \x7b code: \"" ++ fe.code ++
    "\", message: Some(\"").data, ("\") \x7d])" : String).data, ?_⟩
  simp [fieldErrorDebug, String.data_append]

/-- The message of every listed error appears contiguously in the debug
rendering of the error list. -/
theorem validationErrorsDebug_embeds (errs : List FieldError) (fe : FieldError)
    (h : fe ∈ errs) :
    ∃ l r, (validationErrorsDebug errs).data = l ++ fe.message.data ++ r := by
  obtain ⟨l1, r1, h1⟩ := fieldErrorDebug_embeds_message fe
  obtain ⟨l2, r2, h2⟩ := joinSep_mem_embeds ", " (errs.map fieldErrorDebug)
    (fieldErrorDebug fe) (List.mem_map_of_mem _ h)
  rw [h1] at h2
  refine ⟨("ValidationErrors(\x7b" : String).data ++ l2 ++ l1,
    r1 ++ r2 ++ ("\x7d)" : String).data, ?_⟩
  simp [validationErrorsDebug, String.data_append, h2]

/-- Through the fixed prefix, the debug rendering and the newline
flattening, each newline-free per-field message survives contiguously in
the composed client message. -/
theorem message_embeds (errs : List FieldError) (fe : FieldError) (h : fe ∈ errs)
    (hnl : ∀ c ∈ fe.message.data, c ≠ '\n') :
    ∃ l r, (flattenNewlines ("Input validation error: [" ++
      serverErrorDebug (ServerError.ValidationError errs) ++ "]")).data =
        l ++ fe.message.data ++ r := by
  obtain ⟨l, r, hd⟩ := validationErrorsDebug_embeds errs fe h
  refine ⟨flattenChars (("Input validation error: [" : String).data ++
      ("ValidationError(" : String).data ++ l),
    flattenChars (r ++ (")" : String).data ++ ("]" : String).data), ?_⟩
  show flattenChars (("Input validation error: [" ++
    serverErrorDebug (ServerError.ValidationError errs) ++ "]") : String).data = _
  rw [String.data_append, String.data_append]
  simp only [serverErrorDebug, String.data_append, hd]
  simp [flattenChars, replChar, flattenChars_append, List.append_assoc,
    flattenChars_of_no_newline fe.message.data hnl]

/-- A digit round-trips through its character. -/
theorem charToDigit_digitToChar : ∀ d < 10, charToDigit (digitToChar d) = some d := by
  decide

/-- A digit character is not the dot separator. -/
theorem digitToChar_ne_dot : ∀ d < 10, digitToChar d ≠ '.' := by
  decide

/-- A digit character is not the minus sign. -/
theorem digitToChar_ne_dash : ∀ d < 10, digitToChar d ≠ '-' := by
  decide

/-- Collecting digits back from an encoded digit list recovers it. -/
theorem takeDigits_map (ds : List Nat) (h : ∀ d ∈ ds, d < 10) :
    takeDigits (ds.map digitToChar) = some ds := by
  induction ds with
  | nil => rfl
  | cons d rest ih =>
    have h1 := charToDigit_digitToChar d (h d (List.mem_cons_self d rest))
    have h2 := ih fun x hx => h x (List.mem_cons_of_mem d hx)
    simp [takeDigits, h1, h2]

/-- A decimal numeral is never empty. -/
theorem natEncode_ne_nil (n : Nat) : natEncode n ≠ [] := by
  unfold natEncode
  split
  · simp
  · simp [Nat.digits_ne_nil_iff_ne_zero, *]

/-- Every character of a decimal numeral is a digit character. -/
theorem mem_natEncode (n : Nat) (c : Char) (h : c ∈ natEncode n) :
    ∃ d, d < 10 ∧ c = digitToChar d := by
  unfold natEncode at h
  split at h
  · simp at h
    exact ⟨0, by norm_num, by rw [h]; rfl⟩
  · rw [List.mem_reverse] at h
    obtain ⟨d, hd, rfl⟩ := List.mem_map.mp h
    exact ⟨d, Nat.digits_lt_base (by norm_num) hd, rfl⟩

/-- The natural-number numeral codec round-trips. -/
theorem natDecode_natEncode (n : Nat) : natDecode (natEncode n) = some n := by
  by_cases h0 : n = 0
  · subst h0
    decide
  · unfold natEncode natDecode
    rw [if_neg h0]
    have hne : Nat.digits 10 n ≠ [] := Nat.digits_ne_nil_iff_ne_zero.mpr h0
    have hlt : ∀ d ∈ (Nat.digits 10 n).reverse, d < 10 := by
      intro d hd
      exact Nat.digits_lt_base (by norm_num) (List.mem_reverse.mp hd)
    rw [if_neg (by simp [hne]), ← List.map_reverse, takeDigits_map _ hlt]
    simp [Nat.ofDigits_digits]

/-- The integer numeral codec round-trips. -/
theorem intDecode_intEncode (i : Int) : intDecode (intEncode i) = some i := by
  unfold intEncode
  split
  · show intDecode ('-' :: natEncode i.natAbs) = some i
    have h1 : intDecode ('-' :: natEncode i.natAbs) =
        (match natDecode (natEncode i.natAbs) with
          | some n => some (-(n : Int))
          | none => none) := by simp [intDecode]
    rw [h1, natDecode_natEncode]
    show some (-((i.natAbs : Nat) : Int)) = some i
    congr 1
    rw [Int.ofNat_natAbs_of_nonpos (by omega), neg_neg]
  · rcases hl : natEncode i.toNat with _ | ⟨c, cs⟩
    · exact absurd hl (natEncode_ne_nil _)
    · obtain ⟨d, hd10, rfl⟩ := mem_natEncode i.toNat c
        (by rw [hl]; exact List.mem_cons_self _ _)
      have hdash : ¬ digitToChar d = '-' := digitToChar_ne_dash d hd10
      rw [show intDecode (digitToChar d :: cs) =
        (match natDecode (digitToChar d :: cs) with
          | some n => some ((n : Int))
          | none => none) from by simp [intDecode, hdash]]
      rw [← hl, natDecode_natEncode]
      simp
      omega

/-- Splitting at the first dot undoes surrounding a dot-free prefix. -/
theorem splitDot_append (a b : List Char) (h : ('.' : Char) ∉ a) :
    splitDot (a ++ '.' :: b) = some (a, b) := by
  induction a with
  | nil => simp [splitDot]
  | cons c cs ih =>
    have hc : ¬ c = '.' := fun hx => h (hx ▸ List.mem_cons_self c cs)
    have ih' := ih fun hx => h (List.mem_cons_of_mem c hx)
    simp [splitDot, hc, ih']

/-- An integer numeral never holds the dot separator. -/
theorem dot_not_mem_intEncode (i : Int) : ('.' : Char) ∉ intEncode i := by
  unfold intEncode
  split
  · intro h
    rcases List.mem_cons.mp h with hdash | hmem
    · exact absurd hdash (by decide)
    · obtain ⟨d, hd10, hc⟩ := mem_natEncode _ _ hmem
      exact (digitToChar_ne_dot d hd10) hc.symm
  · intro h
    obtain ⟨d, hd10, hc⟩ := mem_natEncode _ _ h
    exact digitToChar_ne_dot d hd10 hc.symm

/-- The timestamp text form round-trips without loss. -/
theorem tsDecode_tsEncode (t : Timestamp) : tsDecode (tsEncode t) = some t := by
  unfold tsEncode tsDecode
  rw [show (⟨intEncode t.secs ++ '.' :: natEncode t.nanos⟩ : String).data =
    intEncode t.secs ++ '.' :: natEncode t.nanos from rfl]
  rw [splitDot_append _ _ (dot_not_mem_intEncode t.secs)]
  simp [intDecode_intEncode, natDecode_natEncode]

/-- The field walk consumes a created entry into the created slot. -/
theorem decodeFields_created_step (s : String) (ts : Timestamp)
    (rest : List (String × Json)) (t a x : Option String)
    (h : tsDecode s = some ts) :
    decodeFields (("created", Json.str s) :: rest) none t a x =
      decodeFields rest (some ts) t a x := by
  show (match tsDecode s with
    | some ts => decodeFields rest (some ts) t a x
    | none => none) = decodeFields rest (some ts) t a x
  rw [h]

/-- The field walk consumes a title entry into the title slot. -/
theorem decodeFields_title_step (s : String) (c : Option Timestamp)
    (rest : List (String × Json)) (a x : Option String) :
    decodeFields (("title", Json.str s) :: rest) c none a x =
      decodeFields rest c (some s) a x := by
  cases c <;> rfl

/-- The field walk consumes an author entry into the author slot. -/
theorem decodeFields_author_step (s : String) (c : Option Timestamp)
    (rest : List (String × Json)) (t x : Option String) :
    decodeFields (("author", Json.str s) :: rest) c t none x =
      decodeFields rest c t (some s) x := by
  cases c <;> cases t <;> rfl

/-- The field walk consumes a text entry into the text slot. -/
theorem decodeFields_text_step (s : String) (c : Option Timestamp)
    (rest : List (String × Json)) (t a : Option String) :
    decodeFields (("text", Json.str s) :: rest) c t a none =
      decodeFields rest c t a (some s) := by
  cases c <;> cases t <;> cases a <;> rfl

/-- The startup loop executes statements in order, each once, and stops
at the first failure. -/
theorem runStatements_spec (exec : String → Except String Unit) (l : List String) :
    ((runStatements exec l).2 = none →
      (runStatements exec l).1 = l ∧ ∀ s ∈ l, exec s = Except.ok ()) ∧
    (∀ e, (runStatements exec l).2 = some e →
      ∃ pre s post, l = pre ++ s :: post ∧
        (runStatements exec l).1 = pre ++ [s] ∧
        (∀ p ∈ pre, exec p = Except.ok ()) ∧ exec s = Except.error e) := by
  induction l with
  | nil => simp [runStatements]
  | cons s rest ih =>
    cases hx : exec s with
    | error e =>
      constructor
      · intro h
        simp [runStatements, hx] at h
      · intro e' h
        simp [runStatements, hx] at h
        exact ⟨[], s, rest, rfl, by simp [runStatements, hx], by simp, h ▸ hx⟩
    | ok u =>
      cases u
      constructor
      · intro h
        simp [runStatements, hx] at h
        have hrest := ih.1 h
        refine ⟨by simp [runStatements, hx, hrest.1], ?_⟩
        intro x hx'
        rcases List.mem_cons.mp hx' with rfl | hmem
        · exact hx
        · exact hrest.2 x hmem
      · intro e h
        simp [runStatements, hx] at h
        obtain ⟨pre, st, post, hsplit, hexec, hpre, herr⟩ := ih.2 e h
        refine ⟨s :: pre, st, post, by simp [hsplit],
          by simp [runStatements, hx, hexec], ?_, herr⟩
        intro p hp
        rcases List.mem_cons.mp hp with rfl | hmem
        · exact hx
        · exact hpre p hmem

/-- C1: an Entry reaches the storage insert only when the JSON decode
succeeded and validation of the decoded Entry passed; every inserted
tuple comes from an Entry satisfying all field constraints. -/
theorem entry_persisted_only_if_validated (is_email : String → Bool)
    (decoded : Except String BlogEntry)
    (insert : Timestamp → String → String → String → Except String Unit)
    (call : Timestamp × String × String × String)
    (h : call ∈ (post_entries is_email decoded insert).1) :
    ∃ v, decoded = Except.ok v ∧ validate is_email v = Except.ok () ∧
      call = (v.created, v.title, v.author, v.text) ∧
      (10 ≤ v.title.length ∧ v.title.length ≤ 100) ∧
      is_email v.author = true ∧ 10 ≤ v.text.length := by
  unfold post_entries at h
  cases hf : from_request is_email decoded with
  | error err =>
    rw [hf] at h
    simp at h
  | ok blog =>
    rw [hf] at h
    have hd := from_request_ok_elim is_email decoded blog hf
    have hc := (validate_ok_spec is_email blog).1.mp hd.2
    have h' : call ∈ (add_blog insert blog).1 := h
    unfold add_blog at h'
    cases hi : insert blog.created blog.title blog.author blog.text with
    | error m =>
      rw [hi] at h'
      simp at h'
      exact ⟨blog, hd.1, hd.2, h', hc.1, hc.2.1, hc.2.2⟩
    | ok u =>
      rw [hi] at h'
      simp at h'
      exact ⟨blog, hd.1, hd.2, h', hc.1, hc.2.1, hc.2.2⟩

/-- Witness for C1: the spec scenario entry is inserted, and its insert
tuple indeed comes from a decoded and validated entry. -/
theorem entry_persisted_only_if_validated_witness :
    (sampleEntry.created, sampleEntry.title, sampleEntry.author, sampleEntry.text) ∈
      (post_entries sampleEmailCheck (Except.ok sampleEntry) alwaysOkInsert).1 ∧
    ∃ v, (Except.ok sampleEntry : Except String BlogEntry) = Except.ok v ∧
      validate sampleEmailCheck v = Except.ok () ∧
      (sampleEntry.created, sampleEntry.title, sampleEntry.author, sampleEntry.text) =
        (v.created, v.title, v.author, v.text) ∧
      (10 ≤ v.title.length ∧ v.title.length ≤ 100) ∧
      sampleEmailCheck v.author = true ∧ 10 ≤ v.text.length :=
  ⟨by decide, entry_persisted_only_if_validated sampleEmailCheck (Except.ok sampleEntry)
    alwaysOkInsert
    (sampleEntry.created, sampleEntry.title, sampleEntry.author, sampleEntry.text)
    (by decide)⟩

/-- C2: validation succeeds exactly when the title length lies in
[10, 100] (boundaries accepted), the author passes the email syntax
predicate and the text length is at least 10; the created timestamp
never changes the outcome. -/
theorem validation_iff_constraints (is_email : String → Bool) (e : BlogEntry) :
    (validate is_email e = Except.ok () ↔
      ((10 ≤ e.title.length ∧ e.title.length ≤ 100) ∧
        is_email e.author = true ∧ 10 ≤ e.text.length)) ∧
    (∀ t : Timestamp, validate is_email { e with created := t } = validate is_email e) :=
  validate_ok_spec is_email e

/-- C3: an entry violating several constraints fails validation with the
accumulated list holding exactly one entry per violated field, each
carrying that field's message; every check ran. -/
theorem multiple_violations_all_reported (is_email : String → Bool) (e : BlogEntry)
    (h : 2 ≤ (validationErrors is_email e).length) :
    validate is_email e = Except.error (validationErrors is_email e) ∧
    (titleError ∈ validationErrors is_email e ↔ titleOk e = false) ∧
    (authorError ∈ validationErrors is_email e ↔ is_email e.author = false) ∧
    (textError ∈ validationErrors is_email e ↔ textOk e = false) ∧
    (validationErrors is_email e).Nodup ∧
    (∀ fe ∈ validationErrors is_email e,
      fe = titleError ∨ fe = authorError ∨ fe = textError) := by
  refine ⟨validate_err_intro is_email e ?_, ?_, ?_, ?_, ?_, mem_validationErrors is_email e⟩
  · intro hnil
    rw [hnil] at h
    simp at h
  all_goals
    unfold validationErrors
    cases h1 : titleOk e <;> cases h2 : is_email e.author <;> cases h3 : textOk e <;>
      simp_all <;> decide

/-- Witness for C3: the entry with a short title and a short text fails
with one error per violated field. -/
theorem multiple_violations_all_reported_witness :
    2 ≤ (validationErrors sampleEmailCheck doubleViolationEntry).length ∧
    (validate sampleEmailCheck doubleViolationEntry =
        Except.error (validationErrors sampleEmailCheck doubleViolationEntry) ∧
      (titleError ∈ validationErrors sampleEmailCheck doubleViolationEntry ↔
        titleOk doubleViolationEntry = false) ∧
      (authorError ∈ validationErrors sampleEmailCheck doubleViolationEntry ↔
        sampleEmailCheck doubleViolationEntry.author = false) ∧
      (textError ∈ validationErrors sampleEmailCheck doubleViolationEntry ↔
        textOk doubleViolationEntry = false) ∧
      (validationErrors sampleEmailCheck doubleViolationEntry).Nodup ∧
      (∀ fe ∈ validationErrors sampleEmailCheck doubleViolationEntry,
        fe = titleError ∨ fe = authorError ∨ fe = textError)) :=
  ⟨by decide, multiple_violations_all_reported sampleEmailCheck doubleViolationEntry
    (by decide)⟩

/-- C4: the request decoder is a two-stage composition: a parse failure
yields the rejection variant carrying the parse problem, a parsed but
invalid entry yields the validation variant carrying the full violation
list, and an entry comes back exactly when both stages succeed. -/
theorem request_decoder_two_stage (is_email : String → Bool)
    (decoded : Except String BlogEntry) :
    (∀ m, from_request is_email decoded = Except.error (ServerError.AxumFormRejection m) ↔
      decoded = Except.error m) ∧
    (∀ errs, from_request is_email decoded = Except.error (ServerError.ValidationError errs) ↔
      ∃ v, decoded = Except.ok v ∧ validate is_email v = Except.error errs) ∧
    (∀ v, from_request is_email decoded = Except.ok v ↔
      decoded = Except.ok v ∧ validate is_email v = Except.ok ()) :=
  from_request_spec is_email decoded

/-- C5: a POST whose body decodes, validates and inserts successfully
performs exactly one insert call with the four fields bound in order
(created, title, author, text) and answers 200 with the JSON string
created. -/
theorem valid_post_inserts_once_and_confirms (is_email : String → Bool) (e : BlogEntry)
    (insert : Timestamp → String → String → String → Except String Unit)
    (hv : validate is_email e = Except.ok ())
    (hi : insert e.created e.title e.author e.text = Except.ok ()) :
    post_entries is_email (Except.ok e) insert =
      ([(e.created, e.title, e.author, e.text)],
        ⟨200, Body.json (Json.str "created")⟩) := by
  simp [post_entries, from_request, hv, add_blog, hi]

/-- Witness for C5: the spec scenario (title of 20 characters, author
a@b.com, text of 15 characters) inserts exactly those values and answers
200 created. -/
theorem valid_post_inserts_once_and_confirms_witness :
    validate sampleEmailCheck sampleEntry = Except.ok () ∧
    alwaysOkInsert sampleEntry.created sampleEntry.title sampleEntry.author
      sampleEntry.text = Except.ok () ∧
    post_entries sampleEmailCheck (Except.ok sampleEntry) alwaysOkInsert =
      ([(sampleEntry.created, sampleEntry.title, sampleEntry.author, sampleEntry.text)],
        ⟨200, Body.json (Json.str "created")⟩) :=
  ⟨rfl, rfl, valid_post_inserts_once_and_confirms sampleEmailCheck sampleEntry
    alwaysOkInsert rfl rfl⟩

/-- C6: a decode failure and a validation failure each answer 400 with a
message describing the problem, and a storage failure on POST or GET
answers 500 carrying the storage error's textual description. -/
theorem failure_responses_status_mapping (is_email : String → Bool)
    (insert : Timestamp → String → String → String → Except String Unit) :
    (∀ m, post_entries is_email (Except.error m) insert = ([], ⟨400, Body.text m⟩)) ∧
    (∀ e errs, validate is_email e = Except.error errs →
      post_entries is_email (Except.ok e) insert =
        ([], ⟨400, Body.text (flattenNewlines ("Input validation error: [" ++
          serverErrorDebug (ServerError.ValidationError errs) ++ "]"))⟩)) ∧
    (∀ e m, validate is_email e = Except.ok () →
      insert e.created e.title e.author e.text = Except.error m →
      post_entries is_email (Except.ok e) insert =
        ([(e.created, e.title, e.author, e.text)], ⟨500, Body.text m⟩)) ∧
    (∀ m, get_blogs (Except.error m) = ⟨500, Body.text m⟩) := by
  refine ⟨?_, ?_, ?_, ?_⟩
  · intro m
    rfl
  · intro e errs hv
    simp [post_entries, from_request, hv, serverErrorIntoResponse]
  · intro e m hv hi
    simp [post_entries, from_request, hv, add_blog, hi, internal_error]
  · intro m
    rfl

/-- Counterexample to C7 as stated: for the short-title entry the client
message is not the bare concatenation of the per-field violation
messages; it wraps them in a fixed prefix and a debug rendering. -/
theorem validation_message_not_bare_concatenation :
    (post_entries sampleEmailCheck (Except.ok shortTitleEntry) alwaysOkInsert).2.body ≠
      Body.text (String.join ((validationErrors sampleEmailCheck shortTitleEntry).map
        (fun fe => fe.message))) := by
  intro h
  exact absurd (congrArg bodyTextOf h) (by decide)

/-- C7 amended: the validation-failure message sent to the client embeds
every per-field violation message contiguously (inside the fixed prefix
and the debug rendering of the violation list), and every internal
newline of the composed message is flattened to a separator, so the
message holds no embedded line break. -/
theorem validation_message_embeds_every_violation (is_email : String → Bool)
    (e : BlogEntry) (errs : List FieldError)
    (insert : Timestamp → String → String → String → Except String Unit)
    (hv : validate is_email e = Except.error errs) :
    ∃ m, post_entries is_email (Except.ok e) insert = ([], ⟨400, Body.text m⟩) ∧
      m = flattenNewlines ("Input validation error: [" ++
        serverErrorDebug (ServerError.ValidationError errs) ++ "]") ∧
      (∀ fe ∈ errs, ∃ l r, m.data = l ++ fe.message.data ++ r) ∧
      (∀ c ∈ m.data, c ≠ '\n') := by
  refine ⟨_, ?_, rfl, ?_, ?_⟩
  · simp [post_entries, from_request, hv, serverErrorIntoResponse]
  · intro fe hfe
    have hmem := mem_validationErrors is_email e fe
      ((validate_err_elim is_email e errs hv).1 ▸ hfe)
    have hnl : ∀ c ∈ fe.message.data, c ≠ '\n' := by
      rcases hmem with rfl | rfl | rfl <;> decide
    exact message_embeds errs fe hfe hnl
  · exact fun c hc => flattenChars_no_newline _ c hc

/-- Witness for the amended C7: the short-title entry produces a 400
whose message embeds the title message and holds no newline. -/
theorem validation_message_embeds_every_violation_witness :
    validate sampleEmailCheck shortTitleEntry = Except.error [titleError] ∧
    (∃ m, post_entries sampleEmailCheck (Except.ok shortTitleEntry) alwaysOkInsert =
        ([], ⟨400, Body.text m⟩) ∧
      m = flattenNewlines ("Input validation error: [" ++
        serverErrorDebug (ServerError.ValidationError [titleError]) ++ "]") ∧
      (∀ fe ∈ [titleError], ∃ l r, m.data = l ++ fe.message.data ++ r) ∧
      (∀ c ∈ m.data, c ≠ '\n')) :=
  ⟨rfl, validation_message_embeds_every_violation sampleEmailCheck shortTitleEntry
    [titleError] alwaysOkInsert rfl⟩

/-- C8: encoding an Entry to its structured text form and decoding it
back yields the same Entry; the timestamp with its precision, the title,
the author and the text are preserved exactly. -/
theorem encode_then_decode_round_trips (e : BlogEntry) :
    decodeBlogEntry (encodeBlogEntry e) = some e := by
  show decodeFields [("created", Json.str (tsEncode e.created)),
    ("title", Json.str e.title), ("author", Json.str e.author),
    ("text", Json.str e.text)] none none none none = some e
  rw [decodeFields_created_step _ _ _ _ _ _ (tsDecode_tsEncode e.created),
    decodeFields_title_step, decodeFields_author_step, decodeFields_text_step]
  rfl

/-- C9: startup splits the schema script on the semicolon delimiter and
executes every resulting statement exactly once in order; when one fails
the run aborts there and no later statement is executed. -/
theorem startup_executes_statements_in_order_until_failure
    (exec : String → Except String Unit) (script : String) :
    ((startup exec script).2 = none →
      (startup exec script).1 = splitSemi script ∧
        ∀ s ∈ splitSemi script, exec s = Except.ok ()) ∧
    (∀ e, (startup exec script).2 = some e →
      ∃ pre s post, splitSemi script = pre ++ s :: post ∧
        (startup exec script).1 = pre ++ [s] ∧
        (∀ p ∈ pre, exec p = Except.ok ()) ∧ exec s = Except.error e) :=
  runStatements_spec exec (splitSemi script)

/-- C10: the created field carries no validation constraint: two entries
differing only in created validate identically, and any timestamp is
accepted when the other three fields satisfy their constraints. -/
theorem created_timestamp_unconstrained (is_email : String → Bool) (e : BlogEntry)
    (t1 t2 : Timestamp) :
    validate is_email { e with created := t1 } =
      validate is_email { e with created := t2 } ∧
    ((10 ≤ e.title.length ∧ e.title.length ≤ 100) → is_email e.author = true →
      10 ≤ e.text.length →
      ∀ t, validate is_email { e with created := t } = Except.ok ()) := by
  constructor
  · rfl
  · intro h1 h2 h3 t
    exact (validate_ok_spec is_email { e with created := t }).1.mpr ⟨h1, h2, h3⟩
